import Mathlib

/-!
# Verification of the miniml type checker

Shallow embedding of the static type checker of the miniml expression
language (`src/typecheck.rs`), together with the type representation
(`ast/src/types.rs`, identical to the checker's own `Type`), the expression
tree and its `Debug` rendering (`syntax/src/exprs.rs`), and the scoped
binding environment `TypeContext`.  The `context` crate's source is not part
of the repository snapshot, so the environment is modelled from the
specification (§4.2): a stack of scopes, most-recent-first lookup, and
`with_bindings` that pushes one scope and unconditionally pops it on return.

The Rust checker mutates the context through `&mut TypeContext`; here it is
embedded in explicit state-passing style: every checking function takes the
context and returns the (possibly intermediately mutated, finally restored)
context alongside the `Result`.
-/

namespace Miniml

/-- Identifiers (`pub type Ident = String`). -/
abbrev Ident := String

/-- `Type` from `typecheck.rs` / `ast/src/types.rs` (`Type` is reserved in
Lean, hence the name `Ty`): `Int`, `Bool`, or `Arrow(arg, ret)`.  Equality is
structural, matching the derived `PartialEq`. -/
inductive Ty where
  | Int : Ty
  | Bool : Ty
  | Arrow : Ty → Ty → Ty
deriving DecidableEq, Repr

/-- `Type::maps_to`: `self.maps_to(other) = Arrow(self, other)`. -/
def Ty.maps_to (self other : Ty) : Ty := Ty.Arrow self other

/-- `Type::arrow` from `ast/src/types.rs`. -/
def Ty.arrow (arg ret : Ty) : Ty := Ty.Arrow arg ret

/-- The `fmt::Debug` rendering of `Type` (identical in `typecheck.rs` and
`ast/src/types.rs`): `Int → "int"`, `Bool → "bool"`, and
`Arrow(l, r) → "(L) -> R"` when `l` is itself an arrow, else `"L -> R"`. -/
def Ty.render : Ty → String
  | .Int => "int"
  | .Bool => "bool"
  | .Arrow l r =>
    (match l with
     | .Arrow _ _ => "(" ++ l.render ++ ")"
     | _ => l.render) ++ " -> " ++ r.render

/-- `ArithOp` from `exprs.rs`: `Mul, Div, Add, Sub`. -/
inductive ArithOp where
  | Mul | Div | Add | Sub
deriving DecidableEq, Repr

/-- `fmt::Debug` for `ArithOp`.  Note the source really renders `Div` as a
backslash character. -/
def ArithOp.render : ArithOp → String
  | .Mul => "*"
  | .Div => "\\"
  | .Add => "+"
  | .Sub => "-"

/-- `CmpOp` from `exprs.rs`: `Eq, Lt, Gt`. -/
inductive CmpOp where
  | Eq | Lt | Gt
deriving DecidableEq, Repr

/-- `fmt::Debug` for `CmpOp`. -/
def CmpOp.render : CmpOp → String
  | .Eq => "=="
  | .Lt => "<"
  | .Gt => ">"

/-- `Literal` from `exprs.rs`: `Number(i64)` or `Bool(bool)`. -/
inductive Literal where
  | Number : Int → Literal
  | Bool : Bool → Literal
deriving DecidableEq, Repr

/-- `fmt::Debug` for `Literal` (delegates to `i64`/`bool` formatting). -/
def Literal.render : Literal → String
  | .Number n => toString n
  | .Bool b => if b then "true" else "false"

mutual

/-- The expression tree the checker consumes (`ast::Expr` as used by
`typecheck.rs`): `Var`, `Literal`, `ArithBinOp`, `CmpBinOp`, `If`, `Fun`,
`LetFun`, `LetRec`, `Apply`.  The `BinOp<T>` struct's `kind/lhs/rhs` fields
and the `If`/`Apply` structs are inlined as constructor arguments. -/
inductive Expr where
  | Var : Ident → Expr
  | Literal : Miniml.Literal → Expr
  | ArithBinOp : ArithOp → Expr → Expr → Expr
  | CmpBinOp : CmpOp → Expr → Expr → Expr
  | If : Expr → Expr → Expr → Expr
  | Fun : Fun → Expr
  | LetFun : Fun → Expr → Expr
  | LetRec : List Fun → Expr → Expr
  | Apply : Expr → Expr → Expr

/-- The `Fun` struct as used by `typecheck.rs`: name, argument name,
argument type annotation, return type annotation (field `fun_type`), body. -/
inductive Fun where
  | mk : Ident → Ident → Ty → Ty → Expr → Fun

end

/-- Field accessor: `Fun::fun_name`. -/
def Fun.fun_name : Fun → Ident
  | .mk n _ _ _ _ => n

/-- Field accessor: `Fun::arg_name`. -/
def Fun.arg_name : Fun → Ident
  | .mk _ a _ _ _ => a

/-- Field accessor: `Fun::arg_type` (already converted via `as_type`). -/
def Fun.arg_type : Fun → Ty
  | .mk _ _ t _ _ => t

/-- Field accessor: `Fun::fun_type`, the declared return type. -/
def Fun.fun_type : Fun → Ty
  | .mk _ _ _ t _ => t

/-- Field accessor: `Fun::body`. -/
def Fun.body : Fun → Expr
  | .mk _ _ _ _ b => b

mutual

/-- `fmt::Debug` for `Expr` (`exprs.rs`).  The repository snapshot's
`exprs.rs` predates the `LetFun`/`LetRec` variants, so those two cases have
no source `Debug` arm; they are given a rendering in the same parenthesized
style.  No theorem below depends on how those two cases render. -/
def Expr.render : Expr → String
  | .Var s => s
  | .Literal l => l.render
  | .ArithBinOp op lhs rhs =>
    "(" ++ op.render ++ " " ++ lhs.render ++ " " ++ rhs.render ++ ")"
  | .CmpBinOp op lhs rhs =>
    "(" ++ op.render ++ " " ++ lhs.render ++ " " ++ rhs.render ++ ")"
  | .If c t f => "(if " ++ c.render ++ " " ++ t.render ++ " " ++ f.render ++ ")"
  | .Fun f => f.render
  | .LetFun f b => "(let " ++ f.render ++ " " ++ b.render ++ ")"
  | .LetRec fs b => "(letrec [" ++ renderFunsCore fs ++ "] " ++ b.render ++ ")"
  | .Apply f a => "(" ++ f.render ++ " " ++ a.render ++ ")"

/-- `fmt::Debug` for `Fun` (`exprs.rs`):
`(λ name (arg_name: arg_type): fun_type body)`. -/
def Fun.render : Fun → String
  | .mk n a at_ rt b =>
    "(λ " ++ n ++ " (" ++ a ++ ": " ++ at_.render ++ "): " ++ rt.render
      ++ " " ++ b.render ++ ")"

/-- The comma-separated interior of Rust's `Debug` rendering of a `Vec<Fun>`
(`"[f1, f2, ...]"` without the brackets). -/
def renderFunsCore : List Fun → String
  | [] => ""
  | [f] => f.render
  | f :: fs => f.render ++ ", " ++ renderFunsCore fs

end

/-- Rust's `Debug` rendering of a `Vec<Fun>` / `&[Fun]`: `"[f1, f2, ...]"`. -/
def renderFuns (fs : List Fun) : String := "[" ++ renderFunsCore fs ++ "]"

/-- `TypeError` from `typecheck.rs`: a message string. -/
structure TypeError where
  message : String
deriving DecidableEq, Repr

/-- `pub type Result = Result<Type, TypeError>`. -/
abbrev TResult := Except TypeError Ty

/-- One scope of the binding environment: an ordered sequence of
(identifier, type) pairs, in the order they were pushed. -/
abbrev Scope := List (Ident × Ty)

/-- Modelled from the spec: the `context` crate's `TypeContext` is not in
the repository snapshot.  Spec §4.2: "a stack of scopes, each scope a
sequence of (identifier, Type) pairs".  The head of the list is the most
recently pushed scope. -/
abbrev TypeContext := List Scope

/-- Modelled from the spec: `TypeContext::empty()` — "environment with zero
scopes". -/
def TypeContext.empty : TypeContext := []

/-- Modelled from the spec: lookup within one scope, most recently pushed
binding first ("if the sequence itself contains a duplicate identifier, the
later entry shadows the earlier one"). -/
def Scope.lookup (s : Scope) (x : Ident) : Option Ty :=
  match s with
  | [] => none
  | b :: rest =>
    match Scope.lookup rest x with
    | some t => some t
    | none => if b.1 = x then some b.2 else none

/-- Modelled from the spec: `TypeContext::lookup` — "linear scan from
most-recently-pushed binding backward; returns the first match or none". -/
def TypeContext.lookup (ctx : TypeContext) (x : Ident) : Option Ty :=
  match ctx with
  | [] => none
  | s :: rest =>
    match s.lookup x with
    | some t => some t
    | none => TypeContext.lookup rest x

/-- Modelled from the spec: `TypeContext::with_bindings` — "pushes
`bindings` as one new scope, invokes `body` with the extended environment,
then unconditionally removes exactly that scope before returning — on both
the success path and the failure path".  In state-passing style the body
returns the context it finished with; the scope it was handed is popped from
that context on the way out, on either outcome. -/
def TypeContext.with_bindings (ctx : TypeContext) (bindings : Scope)
    (body : TypeContext → TResult × TypeContext) : TResult × TypeContext :=
  match body (bindings :: ctx) with
  | (r, ctx2) => (r, ctx2.tail)

/-- `Literal::check`: numbers are `Int`, booleans are `Bool`; no environment
access. -/
def Literal.check : Literal → Ty
  | .Number _ => .Int
  | .Bool _ => .Bool

/-- `fun_type` from `typecheck.rs`:
`arg_type.clone().maps_to(ret_type.clone())`. -/
def fun_type (f : Fun) : Ty :=
  let arg_type := f.arg_type
  let ret_type := f.fun_type
  arg_type.maps_to ret_type

/-- `collect_bindings` from `typecheck.rs`: collects the functions' names
into a `HashSet`; if the set is smaller than the group (a duplicate name),
fails with the duplicate-definitions error naming the whole group; otherwise
returns each function's name paired with its declared `fun_type`.  The
`HashSet` cardinality is the number of distinct names, i.e. the length of
the deduplicated name list. -/
def collect_bindings (funs : List Fun) : Except TypeError Scope :=
  if ((funs.map Fun.fun_name).dedup).length ≠ funs.length then
    .error ⟨"Duplicate definitions in letrec: " ++ renderFuns funs⟩
  else
    .ok (funs.map (fun f => (f.fun_name, fun_type f)))

mutual

/-- `expect` from `typecheck.rs`: checks `expr`, then requires the resulting
type to equal `type_` exactly, failing with the
`"Expected .., got .. in .."` message otherwise; returns `type_`. -/
def expect (e : Expr) (type_ : Ty) (ctx : TypeContext) :
    TResult × TypeContext :=
  match Expr.check e ctx with
  | (.error err, ctx1) => (.error err, ctx1)
  | (.ok t, ctx1) =>
    if t ≠ type_ then
      (.error ⟨"Expected " ++ type_.render ++ ", got " ++ t.render ++ " in "
                 ++ e.render⟩, ctx1)
    else
      (.ok type_, ctx1)
termination_by (sizeOf e, 1)

/-- `Typecheck::check` for `Expr` and the per-variant `impl Typecheck`
blocks of `typecheck.rs`, in state-passing style. -/
def Expr.check (e : Expr) (ctx : TypeContext) : TResult × TypeContext :=
  match e with
  | .Var ident =>
    (match ctx.lookup ident with
     | some t => .ok t
     | none => .error ⟨"Unbound variable: " ++ ident⟩, ctx)
  | .Literal l => (.ok l.check, ctx)
  | .ArithBinOp _op lhs rhs =>
    (match expect lhs Ty.Int ctx with
     | (.error err, ctx1) => (.error err, ctx1)
     | (.ok _, ctx1) =>
       match expect rhs Ty.Int ctx1 with
       | (.error err, ctx2) => (.error err, ctx2)
       | (.ok _, ctx2) => (.ok Ty.Int, ctx2))
  | .CmpBinOp _op lhs rhs =>
    (match expect lhs Ty.Int ctx with
     | (.error err, ctx1) => (.error err, ctx1)
     | (.ok _, ctx1) =>
       match expect rhs Ty.Int ctx1 with
       | (.error err, ctx2) => (.error err, ctx2)
       | (.ok _, ctx2) => (.ok Ty.Bool, ctx2))
  | .If cond tru fls =>
    (match expect cond Ty.Bool ctx with
     | (.error err, ctx1) => (.error err, ctx1)
     | (.ok _, ctx1) =>
       match Expr.check tru ctx1 with
       | (.error err, ctx2) => (.error err, ctx2)
       | (.ok t1, ctx2) =>
         match Expr.check fls ctx2 with
         | (.error err, ctx3) => (.error err, ctx3)
         | (.ok t2, ctx3) =>
           if t1 ≠ t2 then
             (.error ⟨"Arms of an if have different types: " ++ t1.render
                        ++ " " ++ t2.render⟩, ctx3)
           else
             (.ok t1, ctx3))
  | .Fun f => Fun.check f ctx
  | .LetFun f body =>
    (match Fun.check f ctx with
     | (.error err, ctx1) => (.error err, ctx1)
     | (.ok ft, ctx1) =>
       ctx1.with_bindings [(f.fun_name, ft)] (fun c => Expr.check body c))
  | .LetRec funs body =>
    (match collect_bindings funs with
     | .error err => (.error err, ctx)
     | .ok bs =>
       ctx.with_bindings bs (fun c => LetRec.check_funs funs body c))
  | .Apply f a =>
    (match Expr.check f ctx with
     | (.error err, ctx1) => (.error err, ctx1)
     | (.ok t, ctx1) =>
       match t with
       | .Arrow arg ret =>
         (match expect a arg ctx1 with
          | (.error err, ctx2) => (.error err, ctx2)
          | (.ok _, ctx2) => (.ok ret, ctx2))
       | _ => (.error ⟨"Not a function " ++ f.render⟩, ctx1))
termination_by (sizeOf e, 0)

/-- `Fun::check` (`impl Typecheck for Fun`): computes `fun_type(self)`,
checks the body against the declared return type inside a scope with the
two simultaneous bindings `arg_name → arg_type` and `fun_name → result`
(in that push order), and on success returns `result`. -/
def Fun.check (f : Fun) (ctx : TypeContext) : TResult × TypeContext :=
  match f with
  | .mk fn an at_ rt b =>
    let result := fun_type (Fun.mk fn an at_ rt b)
    match TypeContext.with_bindings ctx [(an, at_), (fn, result)]
        (fun c => expect b rt c) with
    | (.error err, ctx1) => (.error err, ctx1)
    | (.ok _, ctx1) => (.ok result, ctx1)
termination_by (sizeOf f, 0)

/-- The body of `LetRec::check`'s `with_bindings` closure: the
`for fun in &self.funs { try!(fun.check(ctx)); }` loop followed by
`self.body.check(ctx)`. -/
def LetRec.check_funs (funs : List Fun) (body : Expr) (ctx : TypeContext) :
    TResult × TypeContext :=
  match funs with
  | [] => Expr.check body ctx
  | f :: fs =>
    match Fun.check f ctx with
    | (.error err, ctx1) => (.error err, ctx1)
    | (.ok _, ctx1) => LetRec.check_funs fs body ctx1
termination_by (sizeOf funs + sizeOf body, 0)

end

/-- `typecheck` from `typecheck.rs`: checks in the empty context. -/
def typecheck (expr : Expr) : TResult :=
  (Expr.check expr TypeContext.empty).1

/-! ## Helper lemmas -/

/-- Frame property of the checker: every check hands back the context it was
given — the scopes pushed by `with_bindings` are gone again on every path. -/
theorem check_ctx_eq (e : Expr) (ctx : TypeContext) :
    (Expr.check e ctx).2 = ctx := by
  refine Expr.check.induct
    (fun e t ctx => (expect e t ctx).2 = ctx)
    (fun e ctx => (Expr.check e ctx).2 = ctx)
    (fun fs b ctx => (LetRec.check_funs fs b ctx).2 = ctx)
    (fun f ctx => (Fun.check f ctx).2 = ctx)
    ?_ ?_ ?_ ?_ ?_ ?_ ?_ ?_ ?_ ?_ ?_ ?_ ?_ ?_ ?_ ?_ ?_ ?_ ?_ ?_ ?_ ?_ ?_ ?_
    ?_ ?_ ?_ ?_ ?_ ?_ e ctx
  all_goals intros
  all_goals
    simp_all [expect, Expr.check, Fun.check, LetRec.check_funs,
      TypeContext.with_bindings]

/-- Frame property, `expect` version. -/
theorem expect_ctx_eq (e : Expr) (t : Ty) (ctx : TypeContext) :
    (expect e t ctx).2 = ctx := by
  have h := check_ctx_eq e ctx
  rcases hc : Expr.check e ctx with ⟨r, c1⟩
  rw [hc] at h
  subst h
  cases r with
  | error err => simp [expect, hc]
  | ok u =>
    by_cases hu : u = t <;> simp [expect, hc, hu]

/-- Frame property, `Fun::check` version. -/
theorem fun_check_ctx_eq (f : Fun) (ctx : TypeContext) :
    (Fun.check f ctx).2 = ctx := by
  cases f with
  | mk fn an at_ rt b =>
    have h := expect_ctx_eq b rt
      ([(an, at_), (fn, fun_type (Fun.mk fn an at_ rt b))] :: ctx)
    rcases he : expect b rt
        ([(an, at_), (fn, fun_type (Fun.mk fn an at_ rt b))] :: ctx)
      with ⟨r, c1⟩
    rw [he] at h
    cases r <;> simp_all [Fun.check, TypeContext.with_bindings, he]

/-- Frame property, loop body of `LetRec::check`. -/
theorem check_funs_ctx_eq (fs : List Fun) (b : Expr) (ctx : TypeContext) :
    (LetRec.check_funs fs b ctx).2 = ctx := by
  induction fs generalizing ctx with
  | nil => simpa [LetRec.check_funs] using check_ctx_eq b ctx
  | cons f fs ih =>
    have h := fun_check_ctx_eq f ctx
    rcases hf : Fun.check f ctx with ⟨r, c1⟩
    rw [hf] at h
    subst h
    cases r <;> simp_all [LetRec.check_funs, hf]

/-- `expect` rewritten with the context threading collapsed: it checks the
expression in the same context and compares the type. -/
theorem expect_eq (e : Expr) (t : Ty) (ctx : TypeContext) :
    expect e t ctx =
      ((match (Expr.check e ctx).1 with
        | .error err => .error err
        | .ok u =>
          if u ≠ t then
            .error ⟨"Expected " ++ t.render ++ ", got " ++ u.render ++ " in "
                      ++ e.render⟩
          else .ok t), ctx) := by
  have h := check_ctx_eq e ctx
  rcases hc : Expr.check e ctx with ⟨r, c1⟩
  rw [hc] at h
  subst h
  cases r with
  | error err => simp [expect, hc]
  | ok u =>
    by_cases hu : u = t <;> simp [expect, hc, hu]

/-- No type is a strict subterm of itself on the argument side of an arrow. -/
theorem arrow_ne_arg (a : Ty) : ∀ r : Ty, Ty.Arrow a r ≠ a := by
  induction a with
  | Int => intro r h; exact Ty.noConfusion h
  | Bool => intro r h; exact Ty.noConfusion h
  | Arrow a1 a2 ih1 _ih2 =>
    intro r h
    injection h with h1 _h2
    exact ih1 a2 h1

/-- The cardinality of the `HashSet` of a list's elements (the length of the
deduplicated list) equals the list's length exactly when the list has no
duplicates. -/
theorem dedup_length_eq_iff {α : Type} [DecidableEq α] (l : List α) :
    l.dedup.length = l.length ↔ l.Nodup := by
  constructor
  · intro h
    have hs : l.dedup.Sublist l := List.dedup_sublist l
    have : l.dedup = l := hs.eq_of_length h
    rw [← this]
    exact List.nodup_dedup l
  · intro h
    rw [List.Nodup.dedup h]

/-- `collect_bindings` on a duplicate-free group returns the
signature-derived bindings, in order. -/
theorem collect_bindings_nodup (funs : List Fun)
    (h : (funs.map Fun.fun_name).Nodup) :
    collect_bindings funs
      = .ok (funs.map (fun f => (f.fun_name, fun_type f))) := by
  have hl : ((funs.map Fun.fun_name).dedup).length = funs.length := by
    rw [(dedup_length_eq_iff _).2 h, List.length_map]
  simp [collect_bindings, hl]

/-- `collect_bindings` on a group with a repeated name fails with the
duplicate-definitions error naming the whole group. -/
theorem collect_bindings_dup (funs : List Fun)
    (h : ¬ (funs.map Fun.fun_name).Nodup) :
    collect_bindings funs =
      .error ⟨"Duplicate definitions in letrec: " ++ renderFuns funs⟩ := by
  have hl : ((funs.map Fun.fun_name).dedup).length ≠ funs.length := by
    intro hc
    apply h
    exact (dedup_length_eq_iff _).1 (by rw [hc, List.length_map])
  simp [collect_bindings, hl]

/-- If every function of the group checks in context `c`, the loop of
`LetRec::check` falls through to checking the `in`-body in `c`. -/
theorem check_funs_all_ok (fs : List Fun) (b : Expr) (c : TypeContext)
    (h : ∀ f ∈ fs, ∃ t, (Fun.check f c).1 = .ok t) :
    LetRec.check_funs fs b c = Expr.check b c := by
  induction fs with
  | nil => simp [LetRec.check_funs]
  | cons f fs ih =>
    obtain ⟨t, ht⟩ := h f (by simp)
    have h1 : Fun.check f c = (.ok t, c) := by
      have hctx := fun_check_ctx_eq f c
      rcases hf : Fun.check f c with ⟨r, c1⟩
      rw [hf] at ht hctx
      simp at ht hctx
      simp [ht, hctx]
    rw [LetRec.check_funs, h1]
    exact ih (fun g hg => h g (by simp [hg]))

/-- The loop of `LetRec::check` propagates the error of the first function
whose body fails, with the context restored. -/
theorem check_funs_first_err (pre : List Fun) (f : Fun) (post : List Fun)
    (b : Expr) (c : TypeContext)
    (hpre : ∀ g ∈ pre, ∃ t, (Fun.check g c).1 = .ok t)
    (err : TypeError) (hf : (Fun.check f c).1 = .error err) :
    LetRec.check_funs (pre ++ f :: post) b c = (.error err, c) := by
  induction pre with
  | nil =>
    have hctx := fun_check_ctx_eq f c
    rcases hfc : Fun.check f c with ⟨r, c1⟩
    rw [hfc] at hf hctx
    simp at hf
    subst hctx hf
    simp [LetRec.check_funs, hfc]
  | cons g pre ih =>
    obtain ⟨t, ht⟩ := hpre g (by simp)
    have hctx := fun_check_ctx_eq g c
    rcases hg : Fun.check g c with ⟨r, c1⟩
    rw [hg] at ht hctx
    simp at ht
    subst hctx ht
    simp only [List.cons_append]
    rw [LetRec.check_funs, hg]
    exact ih (fun g' hg' => hpre g' (by simp [hg']))

/-- A check call returns a pair whose second component is the unchanged
context, so it can be split off syntactically. -/
theorem check_split (e : Expr) (ctx : TypeContext) :
    Expr.check e ctx = ((Expr.check e ctx).1, ctx) :=
  Prod.ext rfl (check_ctx_eq e ctx)

/-! ## Claims -/

/-- C1: for every `LetRec(funs, body)`, a duplicate name in the group fails
with the duplicate-definitions error naming the whole group, independently
of any body (so before any body is examined); with pairwise-distinct names
the signature-derived bindings `name → arrow(arg_type, return_type)` are
pushed as one simultaneous scope, every function's body is checked in that
shared scope (each via `Fun::check`, which layers on its own arg-name and
self-name bindings), and if they all pass, `body` is checked in the same
shared scope and its type is the overall result; the first failing body's
error is the overall result instead. -/
theorem letrec_duplicate_and_shared_scope (funs : List Fun) (body : Expr)
    (ctx : TypeContext) :
    (¬ (funs.map Fun.fun_name).Nodup →
       Expr.check (.LetRec funs body) ctx =
         (.error ⟨"Duplicate definitions in letrec: " ++ renderFuns funs⟩,
          ctx))
    ∧ ((funs.map Fun.fun_name).Nodup →
        (∀ f ∈ funs, ∃ t,
          (Fun.check f
            ((funs.map (fun g => (g.fun_name, fun_type g))) :: ctx)).1
            = .ok t) →
        Expr.check (.LetRec funs body) ctx =
          ((Expr.check body
              ((funs.map (fun g => (g.fun_name, fun_type g))) :: ctx)).1,
           ctx))
    ∧ ((funs.map Fun.fun_name).Nodup →
        ∀ pre f post, funs = pre ++ f :: post →
        (∀ g ∈ pre, ∃ t,
          (Fun.check g
            ((funs.map (fun g => (g.fun_name, fun_type g))) :: ctx)).1
            = .ok t) →
        ∀ err,
          (Fun.check f
            ((funs.map (fun g => (g.fun_name, fun_type g))) :: ctx)).1
            = .error err →
        Expr.check (.LetRec funs body) ctx = (.error err, ctx)) := by
  refine ⟨?_, ?_, ?_⟩
  · intro h
    simp [Expr.check, collect_bindings_dup funs h]
  · intro h hok
    simp only [Expr.check, collect_bindings_nodup funs h,
      TypeContext.with_bindings]
    rw [check_funs_all_ok _ _ _ hok, check_split body _]
    simp
  · intro h pre f post hsplit hpre err hf
    simp only [Expr.check, collect_bindings_nodup funs h,
      TypeContext.with_bindings]
    rw [hsplit] at hpre hf ⊢
    rw [check_funs_first_err pre f post body _ hpre err hf]
    simp

/-- Witness for C1: a group of two functions both named `f` fails with the
duplicate-definitions error even though each body alone would check, and a
singleton group whose body calls itself checks to the body's type. -/
theorem letrec_duplicate_and_shared_scope_witness :
    Expr.check
        (.LetRec [Fun.mk "f" "x" Ty.Int Ty.Int (.Var "x"),
                  Fun.mk "f" "x" Ty.Int Ty.Int (.Var "x")] (.Var "f")) []
      = (.error ⟨"Duplicate definitions in letrec: [(λ f (x: int): int x), (λ f (x: int): int x)]"⟩, [])
    ∧ Expr.check
        (.LetRec [Fun.mk "f" "x" Ty.Int Ty.Int (.Var "x")]
          (.Apply (.Var "f") (.Literal (.Number 1)))) []
      = (.ok Ty.Int, []) := by
  constructor
  · have h := (letrec_duplicate_and_shared_scope
      [Fun.mk "f" "x" Ty.Int Ty.Int (.Var "x"),
       Fun.mk "f" "x" Ty.Int Ty.Int (.Var "x")] (.Var "f") []).1
      (by simp [Fun.fun_name])
    simpa [renderFuns, renderFunsCore, Fun.render, Ty.render] using h
  · have h := (letrec_duplicate_and_shared_scope
      [Fun.mk "f" "x" Ty.Int Ty.Int (.Var "x")]
      (.Apply (.Var "f") (.Literal (.Number 1))) []).2.1
      (by simp)
      (by
        intro g hg
        simp only [List.mem_singleton] at hg
        subst hg
        refine ⟨Ty.Arrow Ty.Int Ty.Int, ?_⟩
        simp [Fun.check, TypeContext.with_bindings, expect, Expr.check,
          TypeContext.lookup, Scope.lookup, fun_type, Fun.arg_type,
          Fun.fun_type, Fun.arg_name, Fun.fun_name, Ty.maps_to,
          Literal.check])
    rw [h]
    simp [Expr.check, expect, TypeContext.lookup, Scope.lookup, fun_type,
      Fun.arg_type, Fun.fun_type, Fun.fun_name, Ty.maps_to, Literal.check]

/-- C2: every `with_bindings` call removes exactly the scope it pushed, on
both the success and the failure path: a body that restores its own context
yields a restored context; every checker call hands back the context it was
given; and after `Fun::check`, `LetFun::check` and `LetRec::check` return,
lookups at the enclosing scope are exactly what they were before, so the
identifiers those checks bound are unresolvable in sibling checks unless
the enclosing context already bound them. -/
theorem with_bindings_restores_scope :
    (∀ (ctx : TypeContext) (bs : Scope)
        (body : TypeContext → TResult × TypeContext),
        (∀ c, (body c).2 = c) → (ctx.with_bindings bs body).2 = ctx)
    ∧ (∀ (e : Expr) (ctx : TypeContext), (Expr.check e ctx).2 = ctx)
    ∧ (∀ (f : Fun) (ctx : TypeContext), (Fun.check f ctx).2 = ctx)
    ∧ (∀ (f : Fun) (ctx : TypeContext) (x : Ident),
        ((Fun.check f ctx).2).lookup x = ctx.lookup x)
    ∧ (∀ (f : Fun) (b : Expr) (ctx : TypeContext) (x : Ident),
        ((Expr.check (.LetFun f b) ctx).2).lookup x = ctx.lookup x)
    ∧ (∀ (fs : List Fun) (b : Expr) (ctx : TypeContext) (x : Ident),
        ((Expr.check (.LetRec fs b) ctx).2).lookup x = ctx.lookup x) := by
  refine ⟨?_, ?_, ?_, ?_, ?_, ?_⟩
  · intro ctx bs body h
    have hb := h (bs :: ctx)
    rcases hc : body (bs :: ctx) with ⟨r, c2⟩
    rw [hc] at hb
    simp at hb
    simp [TypeContext.with_bindings, hc, hb]
  · exact check_ctx_eq
  · exact fun_check_ctx_eq
  · intro f ctx x
    rw [fun_check_ctx_eq]
  · intro f b ctx x
    rw [check_ctx_eq]
  · intro fs b ctx x
    rw [check_ctx_eq]

/-- Witness for C2: a concrete `with_bindings` call with a
context-preserving body returns the empty context it started from. -/
theorem with_bindings_restores_scope_witness :
    (TypeContext.with_bindings [] [("x", Ty.Int)]
        (fun c => (.ok Ty.Int, c))).2 = ([] : TypeContext) :=
  with_bindings_restores_scope.1 [] [("x", Ty.Int)]
    (fun c => (.ok Ty.Int, c)) (fun _ => rfl)

/-- C3: `Fun::check` checks the body in a scope extended with the two
simultaneous bindings `arg_name → arg_type` and `fun_name → own_type` with
`own_type = arrow(arg_type, return_type)`; it succeeds exactly when the
body checks to the declared return type (any other type is a type
mismatch naming the declared type, the actual type and the body), returns
`own_type` on success, and hands the enclosing context back unchanged, so
the function's name is not visible to a caller of the `Fun` expression
itself. -/
theorem fun_check_characterization (f : Fun) (ctx : TypeContext) :
    Fun.check f ctx =
      ((match (Expr.check f.body
            ([(f.arg_name, f.arg_type), (f.fun_name, fun_type f)]
              :: ctx)).1 with
        | .error err => .error err
        | .ok t =>
          if t ≠ f.fun_type then
            .error ⟨"Expected " ++ f.fun_type.render ++ ", got " ++ t.render
                      ++ " in " ++ f.body.render⟩
          else .ok (fun_type f)), ctx) := by
  cases f with
  | mk fn an at_ rt b =>
    simp only [Fun.fun_name, Fun.arg_name, Fun.arg_type, Fun.fun_type,
      Fun.body, fun_type, Ty.maps_to]
    cases hb : (Expr.check b
        ([(an, at_), (fn, Ty.Arrow at_ rt)] :: ctx)).1 with
    | error err =>
      simp [Fun.check, TypeContext.with_bindings, expect_eq, hb, fun_type,
        Fun.arg_type, Fun.fun_type, Ty.maps_to]
    | ok t =>
      by_cases ht : t = rt
      · subst ht
        simp [Fun.check, TypeContext.with_bindings, expect_eq, hb, fun_type,
          Fun.arg_type, Fun.fun_type, Ty.maps_to]
      · simp [Fun.check, TypeContext.with_bindings, expect_eq, hb, ht,
          fun_type, Fun.arg_type, Fun.fun_type, Ty.maps_to]

/-- C4: `Apply(fun, arg)` checks `fun` first; on an arrow type
`Arrow(a, r)` the argument must check to exactly `a` (else a type mismatch
naming `a`, the actual type and the argument) and the result is `r`; on a
non-arrow type it is the not-a-function error naming the `fun`
sub-expression. -/
theorem apply_check_characterization (f a : Expr) (ctx : TypeContext) :
    Expr.check (.Apply f a) ctx =
      ((match (Expr.check f ctx).1 with
        | .error err => .error err
        | .ok (.Arrow arg ret) =>
          (match (Expr.check a ctx).1 with
           | .error err => .error err
           | .ok t =>
             if t ≠ arg then
               .error ⟨"Expected " ++ arg.render ++ ", got " ++ t.render
                         ++ " in " ++ a.render⟩
             else .ok ret)
        | .ok _ => .error ⟨"Not a function " ++ f.render⟩), ctx) := by
  have s1 := check_split f ctx
  cases h1 : (Expr.check f ctx).1 with
  | error err => rw [h1] at s1; simp [Expr.check, s1]
  | ok t =>
    rw [h1] at s1
    cases t with
    | Int => simp [Expr.check, s1]
    | Bool => simp [Expr.check, s1]
    | Arrow arg ret =>
      cases h2 : (Expr.check a ctx).1 with
      | error err => simp [Expr.check, expect_eq, s1, h2]
      | ok u =>
        by_cases hu : u = arg
        · subst hu; simp [Expr.check, expect_eq, s1, h2]
        · simp [Expr.check, expect_eq, s1, h2, hu]

/-- C5: `If(cond, t, f)` requires `cond` to check to `Bool` (else a type
mismatch naming `bool`), then requires the two arms to check to equal
types (else the arm-mismatch error naming both arm types); the result is
the common arm type. -/
theorem if_check_characterization (cond tru fls : Expr) (ctx : TypeContext) :
    Expr.check (.If cond tru fls) ctx =
      ((match (Expr.check cond ctx).1 with
        | .error err => .error err
        | .ok tc =>
          if tc ≠ Ty.Bool then
            .error ⟨"Expected bool, got " ++ tc.render ++ " in "
                      ++ cond.render⟩
          else
            match (Expr.check tru ctx).1 with
            | .error err => .error err
            | .ok t1 =>
              match (Expr.check fls ctx).1 with
              | .error err => .error err
              | .ok t2 =>
                if t1 ≠ t2 then
                  .error ⟨"Arms of an if have different types: " ++ t1.render
                            ++ " " ++ t2.render⟩
                else .ok t1), ctx) := by
  cases h1 : (Expr.check cond ctx).1 with
  | error err => simp [Expr.check, expect_eq, h1]
  | ok tc =>
    by_cases htc : tc = Ty.Bool
    · subst htc
      have s2 := check_split tru ctx
      have s3 := check_split fls ctx
      cases h2 : (Expr.check tru ctx).1 with
      | error err =>
        rw [h2] at s2
        simp [Expr.check, expect_eq, h1, h2, s2, Ty.render]
      | ok t1 =>
        rw [h2] at s2
        cases h3 : (Expr.check fls ctx).1 with
        | error err =>
          rw [h3] at s3
          simp [Expr.check, expect_eq, h1, h2, h3, s2, s3, Ty.render]
        | ok t2 =>
          rw [h3] at s3
          by_cases h12 : t1 = t2
          · subst h12
            simp [Expr.check, expect_eq, h1, h2, h3, s2, s3, Ty.render]
          · simp [Expr.check, expect_eq, h1, h2, h3, h12, s2, s3, Ty.render]
    · simp [Expr.check, expect_eq, h1, htc, Ty.render]

/-- C6: both operands of every comparison operator — `Eq` included — must
check to `Int`, and the result is `Bool`; in particular `true == true`
fails with the Int-expected mismatch. -/
theorem cmp_check_characterization (op : CmpOp) (lhs rhs : Expr)
    (ctx : TypeContext) :
    (Expr.check (.CmpBinOp op lhs rhs) ctx =
      ((match (Expr.check lhs ctx).1 with
        | .error err => .error err
        | .ok t =>
          if t ≠ Ty.Int then
            .error ⟨"Expected int, got " ++ t.render ++ " in " ++ lhs.render⟩
          else
            match (Expr.check rhs ctx).1 with
            | .error err => .error err
            | .ok u =>
              if u ≠ Ty.Int then
                .error ⟨"Expected int, got " ++ u.render ++ " in "
                          ++ rhs.render⟩
              else .ok Ty.Bool), ctx))
    ∧ typecheck (.CmpBinOp .Eq (.Literal (.Bool true)) (.Literal (.Bool true)))
        = .error ⟨"Expected int, got bool in true"⟩ := by
  constructor
  · cases h1 : (Expr.check lhs ctx).1 with
    | error err => simp [Expr.check, expect_eq, h1]
    | ok t =>
      by_cases ht : t = Ty.Int
      · subst ht
        cases h2 : (Expr.check rhs ctx).1 with
        | error err2 => simp [Expr.check, expect_eq, h1, h2, Ty.render]
        | ok u =>
          by_cases hu : u = Ty.Int
          · subst hu; simp [Expr.check, expect_eq, h1, h2, Ty.render]
          · simp [Expr.check, expect_eq, h1, h2, hu, Ty.render]
      · simp [Expr.check, expect_eq, h1, ht, Ty.render]
  · simp [typecheck, Expr.check, expect, Literal.check, Literal.render,
      Expr.render, Ty.render, TypeContext.empty]

/-- C7: both operands of every arithmetic operator must check to `Int`,
with a mismatch naming `int` as expected, the actual type and the
offending operand; the result is `Int` uniformly, independent of the
operator. -/
theorem arith_check_characterization (op : ArithOp) (lhs rhs : Expr)
    (ctx : TypeContext) :
    Expr.check (.ArithBinOp op lhs rhs) ctx =
      ((match (Expr.check lhs ctx).1 with
        | .error err => .error err
        | .ok t =>
          if t ≠ Ty.Int then
            .error ⟨"Expected int, got " ++ t.render ++ " in " ++ lhs.render⟩
          else
            match (Expr.check rhs ctx).1 with
            | .error err => .error err
            | .ok u =>
              if u ≠ Ty.Int then
                .error ⟨"Expected int, got " ++ u.render ++ " in "
                          ++ rhs.render⟩
              else .ok Ty.Int), ctx) := by
  cases h1 : (Expr.check lhs ctx).1 with
  | error err => simp [Expr.check, expect_eq, h1]
  | ok t =>
    by_cases ht : t = Ty.Int
    · subst ht
      cases h2 : (Expr.check rhs ctx).1 with
      | error err2 => simp [Expr.check, expect_eq, h1, h2, Ty.render]
      | ok u =>
        by_cases hu : u = Ty.Int
        · subst hu; simp [Expr.check, expect_eq, h1, h2, Ty.render]
        · simp [Expr.check, expect_eq, h1, h2, hu, Ty.render]
    · simp [Expr.check, expect_eq, h1, ht, Ty.render]

/-- C8: the canonical rendering maps `Int` to `"int"`, `Bool` to `"bool"`,
and an arrow to `A -> R` where the argument side is parenthesized exactly
when it is itself an arrow and the result side never is; in particular the
two chain examples render right-associatively. -/
theorem ty_render_characterization :
    Ty.render Ty.Int = "int" ∧ Ty.render Ty.Bool = "bool"
    ∧ (∀ a1 a2 r : Ty, Ty.render (.Arrow (.Arrow a1 a2) r)
        = "(" ++ Ty.render (.Arrow a1 a2) ++ ")" ++ " -> " ++ r.render)
    ∧ (∀ r : Ty, Ty.render (.Arrow .Int r) = "int" ++ " -> " ++ r.render)
    ∧ (∀ r : Ty, Ty.render (.Arrow .Bool r) = "bool" ++ " -> " ++ r.render)
    ∧ Ty.render (Ty.arrow .Int (Ty.arrow .Bool .Int)) = "int -> bool -> int"
    ∧ Ty.render (Ty.arrow (Ty.arrow .Int .Bool) .Int)
        = "(int -> bool) -> int" := by
  refine ⟨rfl, rfl, ?_, ?_, ?_, rfl, rfl⟩
  · intro a1 a2 r
    rfl
  · intro r
    rfl
  · intro r
    rfl

/-- C9: when the `fun` part of an application checks to a non-arrow type,
the whole application fails with the not-a-function error naming the `fun`
sub-expression, independently of the argument — an error the argument
would produce is never the reported one. -/
theorem apply_notafunction_skips_arg (f a : Expr) (ctx : TypeContext)
    (t : Ty) (h : (Expr.check f ctx).1 = .ok t)
    (hna : t = Ty.Int ∨ t = Ty.Bool) :
    Expr.check (.Apply f a) ctx
      = (.error ⟨"Not a function " ++ f.render⟩, ctx) := by
  have s1 := check_split f ctx
  rw [h] at s1
  rcases hna with ht | ht <;> subst ht <;> simp [Expr.check, s1]

/-- Witness for C9: applying the integer literal `1` to an unbound variable
fails with the not-a-function error, not with the unbound-variable error
the argument would produce. -/
theorem apply_notafunction_skips_arg_witness :
    Expr.check (.Apply (.Literal (.Number 1)) (.Var "y")) []
      = (.error ⟨"Not a function 1"⟩, []) := by
  have h := apply_notafunction_skips_arg (.Literal (.Number 1)) (.Var "y")
    [] Ty.Int (by simp [Expr.check, Literal.check]) (Or.inl rfl)
  simpa [Expr.render, Literal.render] using h

/-- C10: in a `Fun` whose argument name equals its function name, that
identifier resolves inside the body scope to the function's own arrow
type, not to the argument type: the self-name binding is pushed after the
argument binding in the same scope and most-recent-first lookup lets it
shadow the argument. -/
theorem fun_selfname_shadows_arg (f : Fun) (ctx : TypeContext)
    (h : f.arg_name = f.fun_name) :
    TypeContext.lookup
        ([(f.arg_name, f.arg_type), (f.fun_name, fun_type f)] :: ctx)
        f.arg_name
      = some (fun_type f)
    ∧ (Expr.check (.Var f.arg_name)
          ([(f.arg_name, f.arg_type), (f.fun_name, fun_type f)] :: ctx)).1
      = .ok (fun_type f)
    ∧ fun_type f ≠ f.arg_type := by
  have hL : TypeContext.lookup
      ([(f.arg_name, f.arg_type), (f.fun_name, fun_type f)] :: ctx)
      f.arg_name = some (fun_type f) := by
    simp [TypeContext.lookup, Scope.lookup, h]
  refine ⟨hL, ?_, ?_⟩
  · simp [Expr.check, hL]
  · cases f with
    | mk fn an at_ rt b =>
      simp only [fun_type, Fun.arg_type, Fun.fun_type, Ty.maps_to]
      exact arrow_ne_arg at_ rt

/-- Witness for C10: in the scope pushed for `fun f (f: int): int`, the
identifier `f` resolves to `int -> int`, the self type, not to `int`. -/
theorem fun_selfname_shadows_arg_witness :
    TypeContext.lookup [[("f", Ty.Int), ("f", Ty.Arrow Ty.Int Ty.Int)]] "f"
      = some (Ty.Arrow Ty.Int Ty.Int) := by
  have h := fun_selfname_shadows_arg (Fun.mk "f" "f" Ty.Int Ty.Int (.Var "f"))
    [] rfl
  simpa [Fun.arg_name, Fun.fun_name, Fun.arg_type, Fun.fun_type, fun_type,
    Ty.maps_to] using h.1

end Miniml
